import Mathlib

/-!
Verification of the odoo-extractor repository (`odoo_extractor/extractor.py`)
against its natural-language specification.

The development shallowly embeds the extraction pipeline of the class
`OdooModuleExtractor`: configuration tables, the path filter
(`_should_exclude`), the tree walker (`_walk_directory`), the priority
resolver (`_get_file_priority`, including the `fnmatch` glob semantics it
relies on), the three content renderers (`_write_python_file`,
`_write_xml_file`, `_write_generic_file`), checksum computation
(`_calculate_checksum`, a faithful MD5 implementation), and the report
assembly (`_extract_files`, `_generate_summary`, `_create_index`, `extract`).

Filesystem state is modelled as an explicit tree of entries; the results of
the two external parsers the program consults (`ast.parse` and
`ET.fromstring`) are carried as structured fields of a file's data, while
everything the program then does with those parse results is embedded from
the source.  Output files are modelled as lists of written chunks: every
`output_file.write(...)` call in the source appends one chunk, so line
terminators are represented by list structure rather than by embedded
newline characters.
-/

namespace OdooExtractor

/-! ### Path helpers -/

/-- Index of the last occurrence of `'.'` in a character list, if any
(models `str.rfind('.')` as used by `pathlib.PurePath.suffix`). -/
def lastDotIdx (cs : List Char) : Option Nat :=
  (List.range cs.length).foldl
    (fun acc i => if cs.getD i ' ' = '.' then some i else acc) none

/-- `pathlib.PurePath.suffix` of a file name: the part from the last dot on,
but only when that dot is neither the first nor the last character;
otherwise the empty string. -/
def pathSuffix (name : String) : String :=
  let cs := name.data
  match lastDotIdx cs with
  | none => ""
  | some i => if 0 < i ∧ i < cs.length - 1 then ⟨cs.drop i⟩ else ""

/-- Join a relative-path prefix and an entry name with the POSIX separator
(models how `pathlib` forms the paths the walker hands around, rendered
relative to the module root). -/
def joinPath (pre name : String) : String :=
  if pre = "" then name else pre ++ "/" ++ name

/-- `str(rel_path).replace("\\", "/")` from `_get_file_priority`: every
backslash becomes a forward slash. -/
def normalizeSep (s : String) : String :=
  ⟨s.data.map (fun c => if c = '\\' then '/' else c)⟩

/-! ### Configuration tables (class-level constants of `OdooModuleExtractor`) -/

/-- `INCLUDE_EXTENSIONS`: the extension allow-list.  A Python `set`; only
membership is ever queried, so a list is a faithful model. -/
def INCLUDE_EXTENSIONS : List String :=
  [".py", ".xml", ".csv", ".yml", ".yaml", ".js", ".scss", ".css", ".html", ".txt"]

/-- `EXCLUDE_PATTERNS`: names of directories/files to exclude.  A Python
`set`; the exclusion test is a disjunction over all patterns, so iteration
order is irrelevant and a list is a faithful model. -/
def EXCLUDE_PATTERNS : List String :=
  ["__pycache__", ".git", ".idea", ".vscode", "*.pyc", "*.pyo",
   ".DS_Store", "node_modules", "venv", ".venv"]

/-- `PRIORITY_FILES`: the ordered priority table.  A Python `dict` literal;
since Python 3.7 dict iteration follows insertion order, so an association
list in declaration order is a faithful model. -/
def PRIORITY_FILES : List (String × Nat) :=
  [("__manifest__.py", 1),
   ("__init__.py", 2),
   ("models/*.py", 3),
   ("views/*.xml", 4),
   ("security/*.csv", 5),
   ("data/*.xml", 6),
   ("wizard/*.py", 7),
   ("controllers/*.py", 8),
   ("static/src/*.js", 9),
   ("reports/*.xml", 10)]

/-! ### `fnmatch` glob matching

`fnmatch.fnmatch(name, pattern)` on a POSIX platform: `*` matches any
(possibly empty) sequence of characters, `?` matches any single character,
and every other character matches itself.  The patterns in `PRIORITY_FILES`
contain only literal characters and `*`, so character classes (`[...]`) are
not modelled.  Note that `*` matches across `/`, exactly as `fnmatch`
translates it to the regex `.*`. -/

/-- Glob matching of a pattern (first argument) against a string (second
argument), both as character lists. -/
def globMatch1 : List Char → List Char → Bool
  | [], [] => true
  | [], _ :: _ => false
  | '*' :: ps, [] => globMatch1 ps []
  | '*' :: ps, c :: cs => globMatch1 ps (c :: cs) || globMatch1 ('*' :: ps) cs
  | '?' :: _, [] => false
  | '?' :: ps, _ :: cs => globMatch1 ps cs
  | _ :: _, [] => false
  | p :: ps, c :: cs => p == c && globMatch1 ps cs
  termination_by ps cs => (ps.length, cs.length)

/-- `fnmatch.fnmatch(s, pat)` (arguments in the Python order: name, then
pattern). -/
def fnmatchB (s pat : String) : Bool :=
  globMatch1 pat.data s.data

/-! ### Priority resolver (`_get_file_priority`) -/

/-- First loop of `_get_file_priority`: exact string comparison of each
table key against the normalized relative path, in declaration order. -/
def findExact : List (String × Nat) → String → Option Nat
  | [], _ => none
  | (k, p) :: rest, s => if k = s then some p else findExact rest s

/-- Second loop of `_get_file_priority`: for keys containing `*`, glob
matching via `fnmatch`, in declaration order. -/
def findGlob : List (String × Nat) → String → Option Nat
  | [], _ => none
  | (k, p) :: rest, s =>
    if k.data.contains '*' && fnmatchB s k then some p else findGlob rest s

/-- `_get_file_priority`: normalize separators, try exact matches, then
glob matches, default `999`. -/
def _get_file_priority (relPath : String) : Nat :=
  let rel_str := normalizeSep relPath
  match findExact PRIORITY_FILES rel_str with
  | some p => p
  | none =>
    match findGlob PRIORITY_FILES rel_str with
    | some p => p
    | none => 999

/-! ### MD5 (`hashlib.md5(raw_bytes).hexdigest()`)

A faithful implementation of the MD5 digest (RFC 1321) over a list of byte
values, with 32-bit words represented as naturals reduced modulo `2 ^ 32`.
The program truncates the lowercase hex digest to its first 8 characters
(`hexdigest()[:8]`). -/

/-- The per-round left-rotation amounts. -/
def MD5_S : List Nat :=
  [7, 12, 17, 22, 7, 12, 17, 22, 7, 12, 17, 22, 7, 12, 17, 22,
   5, 9, 14, 20, 5, 9, 14, 20, 5, 9, 14, 20, 5, 9, 14, 20,
   4, 11, 16, 23, 4, 11, 16, 23, 4, 11, 16, 23, 4, 11, 16, 23,
   6, 10, 15, 21, 6, 10, 15, 21, 6, 10, 15, 21, 6, 10, 15, 21]

/-- The sine-derived additive constants `K[i] = floor(2^32 * |sin(i+1)|)`. -/
def MD5_K : List Nat :=
  [0xd76aa478, 0xe8c7b756, 0x242070db, 0xc1bdceee,
   0xf57c0faf, 0x4787c62a, 0xa8304613, 0xfd469501,
   0x698098d8, 0x8b44f7af, 0xffff5bb1, 0x895cd7be,
   0x6b901122, 0xfd987193, 0xa679438e, 0x49b40821,
   0xf61e2562, 0xc040b340, 0x265e5a51, 0xe9b6c7aa,
   0xd62f105d, 0x02441453, 0xd8a1e681, 0xe7d3fbc8,
   0x21e1cde6, 0xc33707d6, 0xf4d50d87, 0x455a14ed,
   0xa9e3e905, 0xfcefa3f8, 0x676f02d9, 0x8d2a4c8a,
   0xfffa3942, 0x8771f681, 0x6d9d6122, 0xfde5380c,
   0xa4beea44, 0x4bdecfa9, 0xf6bb4b60, 0xbebfbc70,
   0x289b7ec6, 0xeaa127fa, 0xd4ef3085, 0x04881d05,
   0xd9d4d039, 0xe6db99e5, 0x1fa27cf8, 0xc4ac5665,
   0xf4292244, 0x432aff97, 0xab9423a7, 0xfc93a039,
   0x655b59c3, 0x8f0ccc92, 0xffeff47d, 0x85845dd1,
   0x6fa87e4f, 0xfe2ce6e0, 0xa3014314, 0x4e0811a1,
   0xf7537e82, 0xbd3af235, 0x2ad7d2bb, 0xeb86d391]

/-- 32-bit left rotation. -/
def rotl32 (x c : Nat) : Nat :=
  ((x <<< c) ||| (x >>> (32 - c))) % 4294967296

/-- Bitwise complement within 32 bits. -/
def not32 (x : Nat) : Nat := x ^^^ 0xffffffff

/-- The `n` least significant bytes of a natural, little-endian. -/
def toLEBytes (n x : Nat) : List Nat :=
  (List.range n).map (fun i => x >>> (8 * i) % 256)

/-- The 16 little-endian 32-bit words of one 64-byte block. -/
def blockWords (blk : List Nat) : List Nat :=
  (List.range 16).map (fun j =>
    blk.getD (4 * j) 0 + (blk.getD (4 * j + 1) 0) * 256 +
    (blk.getD (4 * j + 2) 0) * 65536 + (blk.getD (4 * j + 3) 0) * 16777216)

/-- One of the 64 MD5 operations on the state `(A, B, C, D)`. -/
def md5Op (M : List Nat) (st : Nat × Nat × Nat × Nat) (i : Nat) :
    Nat × Nat × Nat × Nat :=
  let (A, B, C, D) := st
  let F :=
    if i < 16 then (B &&& C) ||| (not32 B &&& D)
    else if i < 32 then (D &&& B) ||| (not32 D &&& C)
    else if i < 48 then B ^^^ C ^^^ D
    else C ^^^ (B ||| not32 D)
  let g :=
    if i < 16 then i
    else if i < 32 then (5 * i + 1) % 16
    else if i < 48 then (3 * i + 5) % 16
    else (7 * i) % 16
  let F2 := (F + A + MD5_K.getD i 0 + M.getD g 0) % 4294967296
  (D, (B + rotl32 F2 (MD5_S.getD i 0)) % 4294967296, B, C)

/-- Process one 64-byte block, updating the running state. -/
def md5Block (st : Nat × Nat × Nat × Nat) (blk : List Nat) :
    Nat × Nat × Nat × Nat :=
  let M := blockWords blk
  let (A, B, C, D) := (List.range 64).foldl (md5Op M) st
  let (a0, b0, c0, d0) := st
  ((a0 + A) % 4294967296, (b0 + B) % 4294967296,
   (c0 + C) % 4294967296, (d0 + D) % 4294967296)

/-- MD5 padding: append `0x80`, zero bytes up to 56 mod 64, then the
original bit length as 8 little-endian bytes. -/
def md5Pad (msg : List Nat) : List Nat :=
  msg ++ [0x80] ++ List.replicate ((119 - msg.length % 64) % 64) 0 ++
    toLEBytes 8 (msg.length * 8)

/-- Split a list into 64-byte chunks (fuel-indexed so that it unfolds by
pure reduction; the fuel `l.length` always suffices). -/
def chunk64Go : Nat → List Nat → List (List Nat)
  | 0, _ => []
  | _ + 1, [] => []
  | fuel + 1, c :: cs => (c :: cs).take 64 :: chunk64Go fuel ((c :: cs).drop 64)

/-- Split a padded message into its 64-byte blocks. -/
def chunk64 (l : List Nat) : List (List Nat) := chunk64Go l.length l

/-- The 16-byte MD5 digest of a message given as a list of byte values. -/
def md5DigestBytes (msg : List Nat) : List Nat :=
  let (a0, b0, c0, d0) :=
    (chunk64 (md5Pad msg)).foldl md5Block
      (0x67452301, 0xefcdab89, 0x98badcfe, 0x10325476)
  toLEBytes 4 a0 ++ toLEBytes 4 b0 ++ toLEBytes 4 c0 ++ toLEBytes 4 d0

/-- The sixteen lowercase hex digits. -/
def hexChars : List Char := "0123456789abcdef".data

/-- The hex digit for a nibble value. -/
def hexDigit (n : Nat) : Char := hexChars.getD n '0'

/-- Two lowercase hex digits of a byte value. -/
def byteHex (b : Nat) : List Char := [hexDigit (b / 16 % 16), hexDigit (b % 16)]

/-- The 32 characters of `hashlib.md5(msg).hexdigest()`. -/
def md5HexChars (msg : List Nat) : List Char :=
  (md5DigestBytes msg).flatMap byteHex

/-! ### Python AST model (for `_write_python_file`)

`ast.parse` itself is an external stdlib collaborator; its result is
modelled as a tree in which only the node kinds the scan inspects are
distinguished: `ast.ClassDef` and `ast.FunctionDef` carry their `name`,
every other node kind (including `ast.AsyncFunctionDef`, which is not an
`ast.FunctionDef` subclass) is `other`.  Children appear in the order
`ast.iter_child_nodes` yields them. -/

inductive PyNode where
  | classDef (name : String) (children : List PyNode)
  | funcDef (name : String) (children : List PyNode)
  | other (children : List PyNode)

/-- The child nodes of a node (`ast.iter_child_nodes`). -/
def PyNode.children : PyNode → List PyNode
  | .classDef _ cs => cs
  | .funcDef _ cs => cs
  | .other cs => cs

/-- `ast.walk`: breadth-first traversal using a FIFO queue, yielding each
node (the start node included) before its children are expanded. -/
def walkBFS (queue : List PyNode) : List PyNode :=
  match queue with
  | [] => []
  | n :: rest => n :: walkBFS (rest ++ n.children)
  termination_by (queue.map sizeOf).sum
  decreasing_by
    simp only [List.map_append, List.sum_append]
    have h : (n.children.map sizeOf).sum < sizeOf n := by
      cases n <;> simp only [PyNode.children] <;>
        · rename_i cs
          induction cs with
          | nil => simp
          | cons hd tl ih => simp_all; omega
    simp only [List.map_cons, List.sum_cons]
    omega

/-- The parse result of a Python source file: the list of top-level
statements of the `ast.Module` node, or `none` when `ast.parse` raises. -/
abbrev PyModule := List PyNode

/-- `[node.name for node in ast.walk(tree) if isinstance(node, ast.ClassDef)]`. -/
def scanClasses (body : PyModule) : List String :=
  (walkBFS [PyNode.other body]).filterMap
    (fun n => match n with | .classDef name _ => some name | _ => none)

/-- `[node.name for node in ast.walk(tree) if isinstance(node, ast.FunctionDef)]`. -/
def scanFunctions (body : PyModule) : List String :=
  (walkBFS [PyNode.other body]).filterMap
    (fun n => match n with | .funcDef name _ => some name | _ => none)

/-! ### XML model (for `_write_xml_file`)

`ET.fromstring` is an external stdlib collaborator; its result is modelled
as an element tree in which each element carries its tag, its `id`
attribute when present, and its children in document order. -/

inductive XmlElem where
  | elem (tag : String) (idAttr : Option String) (children : List XmlElem)

/-- Element tag. -/
def XmlElem.tag : XmlElem → String
  | .elem t _ _ => t

/-- `element.get("id", "no-id")`. -/
def XmlElem.idOrDefault : XmlElem → String
  | .elem _ (some v) _ => v
  | .elem _ none _ => "no-id"

/-- Child elements. -/
def XmlElem.children : XmlElem → List XmlElem
  | .elem _ _ cs => cs

/-- All proper descendants of an element, in document (pre-)order (the
list `c.attach` is `c` with membership evidence, used only to justify
termination). -/
def XmlElem.descendants : XmlElem → List XmlElem
  | .elem _ _ cs => cs.attach.flatMap (fun c => c.1 :: c.1.descendants)
  decreasing_by
    simp only [XmlElem.elem.sizeOf_spec]
    have h := List.sizeOf_lt_of_mem c.2
    omega

/-- `root.findall(".//" + t)`: the descendants with tag `t`, in document
order. -/
def findallDesc (root : XmlElem) (t : String) : List XmlElem :=
  root.descendants.filter (fun e => e.tag = t)

/-! ### Filesystem model and the data carried per file

A file's raw bytes, its UTF-8 decoding, and the results of the two
external parsers are carried as fields: `bytes = none` models an unreadable
file (checksum `"error"`), `text = none` models a read or UTF-8 decode
failure, `pyAst`/`xml` model the outcome of `ast.parse` / `ET.fromstring`
on the decoded text (`none` = the parser raised). -/

structure FileData where
  size : Nat
  bytes : Option (List Nat)
  text : Option String
  pyAst : Option PyModule
  xml : Option XmlElem

/-- A file as handed around by the pipeline: its path relative to the
module root (POSIX separators), its base name, and its data. -/
structure FileItem where
  relPath : String
  name : String
  data : FileData

/-- One entry of the walker's output (the dicts built in
`_walk_directory`). -/
inductive WalkItem where
  | dirItem (relPath : String) (name : String)
  | fileItem (it : FileItem)

/-- A filesystem entry under the module root. -/
inductive FSEntry where
  | file (name : String) (data : FileData)
  | dir (name : String) (children : List FSEntry)

/-- Base name of an entry. -/
def entryName : FSEntry → String
  | .file n _ => n
  | .dir n _ => n

/-! ### Path filter (`_should_exclude`) -/

/-- The loop over `EXCLUDE_PATTERNS`: a pattern starting with `*` excludes
names ending with the pattern's remainder, any other pattern excludes the
exactly equal name. -/
def matchesExcludePattern (name : String) : Bool :=
  EXCLUDE_PATTERNS.any (fun pat =>
    match pat.data with
    | '*' :: suf => suf.isSuffixOf name.data
    | _ => name == pat)

/-- `_should_exclude`: exclusion patterns apply to every entry; a file is
additionally excluded when its suffix is not in the allow-list. -/
def _should_exclude : FSEntry → Bool
  | .dir n _ => matchesExcludePattern n
  | .file n _ =>
    matchesExcludePattern n || !(INCLUDE_EXTENSIONS.contains (pathSuffix n))

/-! ### Tree walker (`_walk_directory`) -/

/-- `sorted(path.iterdir())`: the children of one directory listed in
lexicographic name order (for paths with a common parent, `pathlib`
ordering is string ordering of the names). -/
def sortEntries (es : List FSEntry) : List FSEntry :=
  List.insertionSort (fun a b => entryName a ≤ entryName b) es

theorem sizeOf_of_perm {l₁ l₂ : List FSEntry} (h : l₁.Perm l₂) :
    sizeOf l₁ = sizeOf l₂ := by
  induction h with
  | nil => rfl
  | cons x _ ih => simp only [List.cons.sizeOf_spec]; omega
  | swap x y l => simp only [List.cons.sizeOf_spec]; omega
  | trans _ _ ih₁ ih₂ => omega

theorem sizeOf_sortEntries (es : List FSEntry) :
    sizeOf (sortEntries es) = sizeOf es :=
  sizeOf_of_perm (List.perm_insertionSort _ es)

/-- The loop body of `_walk_directory` over an already sorted sibling
list: excluded entries are skipped outright, retained directories emit
their descriptor followed by a recursive walk of their (sorted) children,
retained files emit their descriptor with stat size.  (The
`PermissionError` handler of the source — warn and skip the unreadable
directory's contents — has no counterpart here because the filesystem
model carries no permissions; no claim concerns it.) -/
def walkItems (pre : String) : List FSEntry → List WalkItem
  | [] => []
  | e :: es =>
    (if _should_exclude e then []
     else
       match e with
       | .file n d => [WalkItem.fileItem ⟨joinPath pre n, n, d⟩]
       | .dir n ch =>
         WalkItem.dirItem (joinPath pre n) n ::
           walkItems (joinPath pre n) (sortEntries ch))
    ++ walkItems pre es
  termination_by es => sizeOf es
  decreasing_by
    · simp only [List.cons.sizeOf_spec, sizeOf_sortEntries,
        FSEntry.dir.sizeOf_spec]
      omega
    · simp only [List.cons.sizeOf_spec]; omega

/-- `_walk_directory`: list the directory in sorted order and process each
child. -/
def _walk_directory (pre : String) (entries : List FSEntry) : List WalkItem :=
  walkItems pre (sortEntries entries)

/-! ### Content renderers -/

/-- One `output_file.write(...)` call.  `time t` models the
`datetime.now().strftime(...)` header line, `errorRead` the
`ERROR: 无法读取文件 - {e}` line (the exception detail is abstracted). -/
inductive Chunk where
  | text (s : String)
  | time (t : Nat)
  | errorRead
  deriving DecidableEq

/-- `_write_python_file`: on read/decode failure an `ERROR:` line; else an
optional `PARSED_INFO:` block (silently skipped when `ast.parse` raised)
followed by the raw content. -/
def _write_python_file (d : FileData) : List Chunk :=
  match d.text with
  | none => [Chunk.errorRead]
  | some content =>
    (match d.pyAst with
     | none => []
     | some body =>
       let classes := scanClasses body
       let functions := scanFunctions body
       if classes.isEmpty && functions.isEmpty then []
       else
         [Chunk.text "PARSED_INFO:"]
         ++ (if classes.isEmpty then []
             else [Chunk.text ("  Classes: " ++ String.intercalate ", " classes)])
         ++ (if functions.isEmpty then []
             else [Chunk.text ("  Functions: "
                     ++ String.intercalate ", " (functions.take 10)
                     ++ (if functions.length > 10 then "..." else ""))]))
    ++ [Chunk.text "CONTENT:", Chunk.text content]

/-- `_write_xml_file`: on read/decode failure an `ERROR:` line; else, when
`ET.fromstring` succeeded and the root tag is `odoo` or `openerp`, a
`PARSED_INFO:` header with a records line (count and first five ids, with
an ellipsis marker when more than five) if any records and a templates
line if any templates; then the raw content. -/
def _write_xml_file (d : FileData) : List Chunk :=
  match d.text with
  | none => [Chunk.errorRead]
  | some content =>
    (match d.xml with
     | none => []
     | some root =>
       if root.tag == "odoo" || root.tag == "openerp" then
         let records := findallDesc root "record"
         let templates := findallDesc root "template"
         [Chunk.text "PARSED_INFO:"]
         ++ (if records.isEmpty then []
             else
               [Chunk.text ("  Records: " ++ toString records.length),
                Chunk.text ("  Record IDs: "
                  ++ String.intercalate ", "
                       ((records.take 5).map XmlElem.idOrDefault)
                  ++ (if records.length > 5 then "..." else ""))])
         ++ (if templates.isEmpty then []
             else [Chunk.text ("  Templates: " ++ toString templates.length)])
       else [])
    ++ [Chunk.text "CONTENT:", Chunk.text content]

/-- `_write_generic_file`: raw content when the text read succeeds, the
binary-skip marker otherwise. -/
def _write_generic_file (d : FileData) : List Chunk :=
  match d.text with
  | some content => [Chunk.text "CONTENT:", Chunk.text content]
  | none => [Chunk.text "CONTENT: [Binary file - skipped]"]

/-- `_calculate_checksum`: the first 8 characters of the MD5 hex digest of
the raw bytes, or `"error"` when they cannot be read. -/
def _calculate_checksum (d : FileData) : String :=
  match d.bytes with
  | some bs => ⟨(md5HexChars bs).take 8⟩
  | none => "error"

/-- The separator written before and after each section:
eighty `=` characters. -/
def sep80 : Chunk := Chunk.text ⟨List.replicate 80 '='⟩

/-- The body of a section, dispatched on the file's suffix. -/
def fileBody (it : FileItem) : List Chunk :=
  if pathSuffix it.name == ".py" then _write_python_file it.data
  else if pathSuffix it.name == ".xml" then _write_xml_file it.data
  else _write_generic_file it.data

/-- All chunks one call of `_write_file_content` writes for one file:
separator, `FILE:`/`SIZE:`/`TYPE:` header lines, the dispatched body, and
the closing separator. -/
def sectionChunks (it : FileItem) : List Chunk :=
  [sep80,
   Chunk.text ("FILE: " ++ it.relPath),
   Chunk.text ("SIZE: " ++ toString it.data.size ++ " bytes"),
   Chunk.text ("TYPE: " ++ pathSuffix it.name)]
  ++ fileBody it
  ++ [sep80]

/-! ### Report assembly -/

/-- A `FileRecord` as appended to `self.file_index`. -/
structure FileRecord where
  path : String
  size : Nat
  type : String
  checksum : String
  deriving DecidableEq

/-- The record `_write_file_content` appends for one file. -/
def mkRecord (it : FileItem) : FileRecord :=
  { path := it.relPath, size := it.data.size,
    type := pathSuffix it.name, checksum := _calculate_checksum it.data }

/-- The mutable accumulator of the extractor instance:
`self.file_index` and `self.total_size`. -/
structure ExtractAcc where
  file_index : List FileRecord
  total_size : Nat
  deriving DecidableEq

/-- State effect of one `_write_file_content` call, paired with the chunks
it writes. -/
def _write_file_content (acc : ExtractAcc) (it : FileItem) :
    ExtractAcc × List Chunk :=
  ({ file_index := acc.file_index ++ [mkRecord it],
     total_size := acc.total_size + it.data.size },
   sectionChunks it)

/-- The loop of `_extract_files` over the sorted file list, returning the
final accumulator and the per-file sections in order. -/
def processFiles (acc : ExtractAcc) : List FileItem → ExtractAcc × List (List Chunk)
  | [] => (acc, [])
  | it :: rest =>
    let r := _write_file_content acc it
    let rr := processFiles r.1 rest
    (rr.1, r.2 :: rr.2)

/-- Sort key of `all_files.sort(key=...)`. -/
def prio (it : FileItem) : Nat := _get_file_priority it.relPath

/-- `all_files.sort(key=lambda x: self._get_file_priority(x["path"]))`.
Python's `list.sort` is a stable sort; a stably sorted permutation is
unique, so insertion sort with the non-strict key order computes the same
list. -/
def sortFilesByPriority (files : List FileItem) : List FileItem :=
  List.insertionSort (fun a b => prio a ≤ prio b) files

/-- The file items among the walker's output (the `all_files` list). -/
def allFilesOf (items : List WalkItem) : List FileItem :=
  items.filterMap (fun i => match i with | .fileItem it => some it | _ => none)

/-- `_extract_files`: collect files from a fresh walk, sort by priority,
write the content-bundle header (module title, generation time, file
count) and every file's section. -/
def _extract_files (name : String) (t : Nat) (entries : List FSEntry) :
    ExtractAcc × List Chunk :=
  let all_files := allFilesOf (_walk_directory "" entries)
  let sorted := sortFilesByPriority all_files
  let pr := processFiles ⟨[], 0⟩ sorted
  (pr.1,
   Chunk.text ("# " ++ name ++ " 模块代码内容") :: Chunk.time t ::
     Chunk.text ("# 文件总数: " ++ toString all_files.length) :: pr.2.flatten)

/-! ### Manifest handling (`_extract_manifest`) and summary

`ast.literal_eval` is an external stdlib collaborator.  Its possible
outcomes on the manifest file are modelled by `ManifestSrc`: the file may
be absent; reading or evaluation may raise (`evalError` — unsafe content,
syntax errors, undecodable bytes); or evaluation yields a Python literal,
either a dict or some non-dict value. -/

/-- A Python literal value, as produced by `ast.literal_eval` for a
well-formed manifest dict. -/
inductive PyVal where
  | str (s : String)
  | intVal (n : Int)
  | boolVal (b : Bool)
  | listVal (l : List PyVal)
  | dictVal (l : List (String × PyVal))

/-- The state of the `__manifest__.py` file at the module root. -/
inductive ManifestSrc where
  | absent
  | evalError
  | dict (entries : List (String × PyVal))
  | nonDict

/-- The value stored in `self.module_info` after `_extract_manifest`:
`{}` when the file is absent (the constructor default is kept) or when
reading/evaluation raised; otherwise the evaluated literal as-is. -/
inductive ModuleInfo where
  | dict (entries : List (String × PyVal))
  | nonDict

/-- `_extract_manifest`. -/
def _extract_manifest : ManifestSrc → ModuleInfo
  | .absent => .dict []
  | .evalError => .dict []
  | .dict e => .dict e
  | .nonDict => .nonDict

/-- Python `dict.get(k, dflt)` on a dict built from a literal: with
duplicate keys the last occurrence wins, so lookup searches from the
right. -/
def dictGet (entries : List (String × PyVal)) (k : String) (dflt : PyVal) : PyVal :=
  match entries.reverse.find? (fun kv => kv.1 == k) with
  | some kv => kv.2
  | none => dflt

/-- The `statistics` object of the summary.  `total_size_mb_scaled` stands
for `round(total_size / 1024 / 1024, 2)`: the value is carried as
truncated hundredths of a megabyte because Python's float rounding is not
modelled; no claim depends on this field. -/
structure Statistics where
  total_files : Nat
  total_size_bytes : Nat
  total_size_mb_scaled : Nat
  file_types : List (String × Nat)

/-- One step of `_count_file_types`: `type_count[ext] = type_count.get(ext, 0) + 1`
preserving first-insertion order. -/
def bumpType (acc : List (String × Nat)) (ext : String) : List (String × Nat) :=
  match acc with
  | [] => [(ext, 1)]
  | (k, c) :: rest =>
    if k == ext then (k, c + 1) :: rest else (k, c) :: bumpType rest ext

/-- `_count_file_types`. -/
def _count_file_types (records : List FileRecord) : List (String × Nat) :=
  records.foldl (fun acc r => bumpType acc r.type) []

/-- The summary JSON object. -/
structure Summary where
  module_name : String
  extraction_date : Nat
  module_info : List (String × PyVal)
  statistics : Statistics
  dependencies : PyVal
  version : PyVal
  author : PyVal
  category : PyVal

/-- `_generate_summary`.  When `self.module_info` holds a non-dict value,
`self.module_info.get("depends", [])` raises `AttributeError`, which
nothing catches: the run aborts here, which the model renders as `none`. -/
def _generate_summary (name : String) (t : Nat) (mi : ModuleInfo)
    (acc : ExtractAcc) : Option Summary :=
  match mi with
  | .nonDict => none
  | .dict info =>
    some
      { module_name := name
        extraction_date := t
        module_info := info
        statistics :=
          { total_files := acc.file_index.length
            total_size_bytes := acc.total_size
            total_size_mb_scaled := acc.total_size * 100 / 1048576
            file_types := _count_file_types acc.file_index }
        dependencies := dictGet info "depends" (.listVal [])
        version := dictGet info "version" (.str "unknown")
        author := dictGet info "author" (.str "unknown")
        category := dictGet info "category" (.str "unknown") }

/-- The index JSON object written by `_create_index`. -/
structure IndexJson where
  module : String
  files : List FileRecord
  total_files : Nat
  total_size : Nat
  deriving DecidableEq

/-- `_create_index`. -/
def _create_index (name : String) (acc : ExtractAcc) : IndexJson :=
  { module := name, files := acc.file_index,
    total_files := acc.file_index.length, total_size := acc.total_size }

/-! ### Structure listing (`_generate_tree_structure`) -/

/-- One line of the structure file.  `fileLine` carries the raw byte size;
the source renders it as `size / 1024` kilobytes with one decimal (the
float formatting is abstracted, deterministic in the size). -/
inductive TreeLine where
  | header (moduleName : String)
  | time (t : Nat)
  | dirLine (indent : Nat) (name : String)
  | fileLine (indent : Nat) (name : String) (sizeBytes : Nat)
  deriving DecidableEq

/-- `len(item["path"].relative_to(self.module_path).parts) - 1`. -/
def pathDepth (rel : String) : Nat := (rel.splitOn "/").length - 1

/-- `_generate_tree_structure`: header, generation time, then one line per
walked item. -/
def _generate_tree_structure (name : String) (t : Nat)
    (items : List WalkItem) : List TreeLine :=
  TreeLine.header name :: TreeLine.time t ::
    items.map (fun i =>
      match i with
      | .dirItem rel n => TreeLine.dirLine (pathDepth rel) n
      | .fileItem it => TreeLine.fileLine (pathDepth it.relPath) it.name it.data.size)

/-! ### The whole run (`extract`) -/

/-- The module root as the extractor sees it.  The manifest is read
directly by path in `_extract_manifest`, so it is carried separately from
the child entries the walker enumerates. -/
structure ModuleFS where
  name : String
  manifest : ManifestSrc
  entries : List FSEntry

/-- Everything one run writes.  The structure listing and the content
bundle are written before `_generate_summary` runs; `final` is the summary
and index files, `none` when the run aborts in `_generate_summary`. -/
structure RunOutput where
  structureFile : List TreeLine
  contentFile : List Chunk
  final : Option (Summary × IndexJson)

/-- `extract`: manifest, structure listing, content bundle (with its fresh
second walk), summary, index. -/
def extract (fs : ModuleFS) (t : Nat) : RunOutput :=
  let mi := _extract_manifest fs.manifest
  let structureF := _generate_tree_structure fs.name t (_walk_directory "" fs.entries)
  let ef := _extract_files fs.name t fs.entries
  { structureFile := structureF
    contentFile := ef.2
    final := (_generate_summary fs.name t mi ef.1).map
      (fun s => (s, _create_index fs.name ef.1)) }

/-! ## Theorems -/

/-! ### Behaviour of the `_extract_files` loop -/

theorem processFiles_file_index (acc : ExtractAcc) (l : List FileItem) :
    (processFiles acc l).1.file_index = acc.file_index ++ l.map mkRecord := by
  induction l generalizing acc with
  | nil => simp [processFiles]
  | cons it rest ih =>
    simp [processFiles, _write_file_content, ih]

theorem processFiles_total_size (acc : ExtractAcc) (l : List FileItem) :
    (processFiles acc l).1.total_size =
      acc.total_size + (l.map (fun it => it.data.size)).sum := by
  induction l generalizing acc with
  | nil => simp [processFiles]
  | cons it rest ih =>
    simp [processFiles, _write_file_content, ih]
    omega

theorem processFiles_sections (acc : ExtractAcc) (l : List FileItem) :
    (processFiles acc l).2 = l.map sectionChunks := by
  induction l generalizing acc with
  | nil => simp [processFiles]
  | cons it rest ih =>
    simp [processFiles, _write_file_content, ih]

/-- `C2`: for every run whose summary is produced, the summary statistics
agree with the accumulated index: `total_files` is the number of
FileRecords in the index file, and `total_size_bytes` is the sum of their
`size` fields. -/
theorem spec_c2 (fs : ModuleFS) (t : Nat) :
    match (extract fs t).final with
    | some (s, idx) =>
      s.statistics.total_files = idx.files.length
      ∧ s.statistics.total_size_bytes = (idx.files.map FileRecord.size).sum
    | none => True := by
  have hcomp : FileRecord.size ∘ mkRecord = fun it : FileItem => it.data.size := rfl
  cases hm : _extract_manifest fs.manifest with
  | nonDict =>
    simp [extract, _generate_summary, hm]
  | dict info =>
    simp only [extract, _generate_summary, hm, Option.map_some]
    refine ⟨?_, ?_⟩
    · simp [_create_index]
    · simp [_create_index, _extract_files, processFiles_total_size,
        processFiles_file_index, List.map_map, hcomp]

/-! ### Stability of the priority sort -/

theorem filter_orderedInsert_prio (p : Nat) (a : FileItem) (l : List FileItem) :
    (List.orderedInsert (fun x y => prio x ≤ prio y) a l).filter
        (fun it => prio it == p)
      = if prio a == p then a :: l.filter (fun it => prio it == p)
        else l.filter (fun it => prio it == p) := by
  induction l with
  | nil => simp [List.orderedInsert, List.filter_cons]
  | cons b bs ih =>
    by_cases hab : prio a ≤ prio b
    · have hstep : List.orderedInsert (fun x y => prio x ≤ prio y) a (b :: bs)
          = a :: b :: bs := by
        simp [List.orderedInsert, hab]
      rw [hstep]
      by_cases hpa : (prio a == p) <;> by_cases hpb : (prio b == p) <;>
        simp [List.filter_cons, hpa, hpb]
    · have hba : prio b < prio a := Nat.not_le.mp hab
      have hstep : List.orderedInsert (fun x y => prio x ≤ prio y) a (b :: bs)
          = b :: List.orderedInsert (fun x y => prio x ≤ prio y) a bs := by
        simp [List.orderedInsert, hab]
      rw [hstep]
      by_cases hpa : prio a = p
      · have hpb : (prio b == p) = false := by
          simp only [beq_eq_false_iff_ne, ne_eq]
          omega
        simp [List.filter_cons, hpb, ih, hpa]
      · have hpa' : (prio a == p) = false := by simp [hpa]
        by_cases hpb : (prio b == p) <;>
          simp [List.filter_cons, hpb, ih, hpa']

theorem filter_sortFilesByPriority (p : Nat) (files : List FileItem) :
    (sortFilesByPriority files).filter (fun it => prio it == p)
      = files.filter (fun it => prio it == p) := by
  induction files with
  | nil => rfl
  | cons a l ih =>
    show (List.orderedInsert _ a (List.insertionSort _ l)).filter _ = _
    rw [filter_orderedInsert_prio]
    show (if _ then a :: (sortFilesByPriority l).filter _
          else (sortFilesByPriority l).filter _) = _
    rw [ih]
    by_cases hpa : (prio a == p) <;> simp [List.filter_cons, hpa]

/-- `C1`: one run's index and content bundle are built from the same
sorted file list: the i-th FileRecord of the index is the record of the
file whose section is the i-th section of the bundle (everything after the
three bundle header chunks).  The sorted list is a permutation of the
walker's traversal output restricted to files, it is ordered by
non-decreasing priority, and files of equal priority keep the relative
order the traversal produced (the filter at every priority value is
unchanged). -/
theorem spec_c1 (fs : ModuleFS) (t : Nat) :
    let all_files := allFilesOf (_walk_directory "" fs.entries)
    let sorted := sortFilesByPriority all_files
    (_extract_files fs.name t fs.entries).1.file_index = sorted.map mkRecord
    ∧ (extract fs t).contentFile.drop 3 = (sorted.map sectionChunks).flatten
    ∧ sorted.Perm all_files
    ∧ sorted.Pairwise (fun a b => prio a ≤ prio b)
    ∧ ∀ p : Nat, sorted.filter (fun it => prio it == p)
        = all_files.filter (fun it => prio it == p) := by
  intro all_files sorted
  refine ⟨?_, ?_, ?_, ?_, ?_⟩
  · simp [_extract_files, processFiles_file_index]
  · show (_extract_files fs.name t fs.entries).2.drop 3 = _
    simp [_extract_files, processFiles_sections]
  · exact List.perm_insertionSort _ all_files
  · haveI : IsTotal FileItem (fun a b => prio a ≤ prio b) :=
      ⟨fun a b => Nat.le_total _ _⟩
    haveI : IsTrans FileItem (fun a b => prio a ≤ prio b) :=
      ⟨fun _ _ _ => Nat.le_trans⟩
    exact List.sorted_insertionSort _ all_files
  · exact fun p => filter_sortFilesByPriority p all_files

/-- `C9`: a run is deterministic in everything but the timestamp: for a
fixed module filesystem, the structure listing and the content bundle of
two runs agree once the generation-time line (at position 1 in both
files) is removed. -/
theorem spec_c9 (fs : ModuleFS) (t₁ t₂ : Nat) :
    (extract fs t₁).structureFile.eraseIdx 1 =
      (extract fs t₂).structureFile.eraseIdx 1
    ∧ (extract fs t₁).contentFile.eraseIdx 1 =
      (extract fs t₂).contentFile.eraseIdx 1 :=
  ⟨rfl, rfl⟩

/-! ### The priority resolver -/

theorem findExact_eq_find? (l : List (String × Nat)) (s : String) :
    findExact l s = (l.find? (fun kv => kv.1 == s)).map Prod.snd := by
  induction l with
  | nil => rfl
  | cons kv rest ih =>
    obtain ⟨k, p⟩ := kv
    cases hk : (k == s) with
    | true =>
      have h : k = s := by simpa using hk
      simp [findExact, List.find?, hk, h]
    | false =>
      have h : ¬k = s := by simpa using hk
      simp [findExact, List.find?, hk, h, ih]

theorem findGlob_eq_find? (l : List (String × Nat)) (s : String) :
    findGlob l s =
      (l.find? (fun kv => kv.1.data.contains '*' && fnmatchB s kv.1)).map Prod.snd := by
  induction l with
  | nil => rfl
  | cons kv rest ih =>
    obtain ⟨k, p⟩ := kv
    cases hc : (k.data.contains '*' && fnmatchB s k) with
    | true =>
      have hfind : List.find? (fun kv => kv.1.data.contains '*' && fnmatchB s kv.1)
          ((k, p) :: rest) = some (k, p) := List.find?_cons_of_pos _ hc
      rw [hfind]
      have hc' := hc
      simp only [Bool.and_eq_true] at hc'
      have hmem : '*' ∈ k.data := by simpa using hc'.1
      simp [findGlob, hmem, hc'.2]
    | false =>
      have hfind : List.find? (fun kv => kv.1.data.contains '*' && fnmatchB s kv.1)
          ((k, p) :: rest)
          = List.find? (fun kv => kv.1.data.contains '*' && fnmatchB s kv.1) rest :=
        List.find?_cons_of_neg _ (by intro h; rw [hc] at h; exact Bool.false_ne_true h)
      rw [hfind]
      simp only [findGlob, hc, Bool.false_eq_true, if_false, ih]

/-- `C3`: the priority of a relative path is the value of the first table
key (in declaration order) that equals the normalized path exactly; when
no key does, the value of the first wildcard-containing key (in
declaration order) that glob-matches it; and when no key matches at all,
the sentinel `999`, which is strictly larger than every declared priority,
so unmatched files sort last but are never dropped. -/
theorem spec_c3 (relPath : String) :
    _get_file_priority relPath =
      ((PRIORITY_FILES.find?
          (fun kv => kv.1 == normalizeSep relPath)).map Prod.snd).getD
        (((PRIORITY_FILES.find?
            (fun kv => kv.1.data.contains '*'
              && fnmatchB (normalizeSep relPath) kv.1)).map
              Prod.snd).getD 999)
    ∧ PRIORITY_FILES.all (fun kv => decide (kv.2 < 999)) = true := by
  constructor
  · show (match findExact PRIORITY_FILES (normalizeSep relPath) with
      | some p => p
      | none =>
        match findGlob PRIORITY_FILES (normalizeSep relPath) with
        | some p => p
        | none => 999) = _
    rw [findExact_eq_find?, findGlob_eq_find?]
    cases PRIORITY_FILES.find? (fun kv => kv.1 == normalizeSep relPath) with
    | none =>
      cases PRIORITY_FILES.find?
          (fun kv => kv.1.data.contains '*'
            && fnmatchB (normalizeSep relPath) kv.1) <;> rfl
    | some kv => rfl
  · decide

/-! ### The walker and exclusion -/

theorem walkItems_nil (pre : String) : walkItems pre [] = [] := by
  rw [walkItems.eq_def]

theorem walkItems_cons (pre : String) (e : FSEntry) (es : List FSEntry) :
    walkItems pre (e :: es)
      = (if _should_exclude e then []
         else
           match e with
           | .file n d => [WalkItem.fileItem ⟨joinPath pre n, n, d⟩]
           | .dir n ch =>
             WalkItem.dirItem (joinPath pre n) n ::
               walkItems (joinPath pre n) (sortEntries ch))
        ++ walkItems pre es := by
  rw [walkItems.eq_def]

theorem walkItems_single_excluded (pre : String) (e : FSEntry)
    (h : _should_exclude e = true) : walkItems pre [e] = [] := by
  rw [walkItems_cons, walkItems_nil]
  simp [h]

theorem walkItems_eq_flatMap (pre : String) (l : List FSEntry) :
    walkItems pre l = l.flatMap (fun e => walkItems pre [e]) := by
  induction l with
  | nil => rw [walkItems_nil]; rfl
  | cons e es ih =>
    rw [List.flatMap_cons, ← ih, walkItems_cons, walkItems_cons, walkItems_nil]
    simp

theorem flatMap_filter_of_excluded (pre : String) (l : List FSEntry) :
    l.flatMap (fun e => walkItems pre [e])
      = (l.filter (fun x => !_should_exclude x)).flatMap
          (fun e => walkItems pre [e]) := by
  induction l with
  | nil => rfl
  | cons e es ih =>
    cases h : _should_exclude e with
    | true =>
      simp [List.filter_cons, h, walkItems_single_excluded pre e h, ih]
    | false => simp [List.filter_cons, h, ih]

/-- `C6`: an entry matching the exclusion rules contributes nothing to the
walker's output — for an excluded directory its entire subtree is never
visited, however the files below it are named; the walk of a directory is
exactly the concatenated walks of its retained (sorted) children; and
every FileRecord of any run's index arises from a file item present in the
walker's output, so files under an excluded directory appear in neither. -/
theorem spec_c6 (pre : String) (entries : List FSEntry) (e : FSEntry)
    (h : _should_exclude e = true) :
    walkItems pre [e] = []
    ∧ _walk_directory pre entries
        = ((sortEntries entries).filter (fun x => !_should_exclude x)).flatMap
            (fun x => walkItems pre [x])
    ∧ ∀ (fs : ModuleFS) (t : Nat) (r : FileRecord),
        r ∈ (_extract_files fs.name t fs.entries).1.file_index →
        ∃ it : FileItem,
          WalkItem.fileItem it ∈ _walk_directory "" fs.entries
          ∧ r = mkRecord it := by
  refine ⟨walkItems_single_excluded pre e h, ?_, ?_⟩
  · rw [_walk_directory, walkItems_eq_flatMap, flatMap_filter_of_excluded]
  · intro fs t r hr
    rw [_extract_files] at hr
    simp only [processFiles_file_index, List.nil_append, List.mem_map] at hr
    obtain ⟨it, hit, hrec⟩ := hr
    have hmem : it ∈ allFilesOf (_walk_directory "" fs.entries) :=
      (List.perm_insertionSort _ _).mem_iff.mp hit
    rw [allFilesOf, List.mem_filterMap] at hmem
    obtain ⟨wi, hwi, hsome⟩ := hmem
    cases wi with
    | dirItem _ _ => simp at hsome
    | fileItem it' =>
      simp only [Option.some.injEq] at hsome
      exact ⟨it, by rwa [hsome] at hwi, hrec.symm⟩

/-- Witness for `C6`: a version-control metadata directory (name `.git`)
containing a file with an allowed extension is excluded and its subtree
contributes nothing to the walk. -/
theorem spec_c6_witness :
    _should_exclude
        (FSEntry.dir ".git" [FSEntry.file "a.py" ⟨3, none, none, none, none⟩]) = true
    ∧ walkItems ""
        [FSEntry.dir ".git" [FSEntry.file "a.py" ⟨3, none, none, none, none⟩]] = [] :=
  ⟨by decide,
   (spec_c6 "" []
     (FSEntry.dir ".git" [FSEntry.file "a.py" ⟨3, none, none, none, none⟩])
     (by decide)).1⟩

/-! ### Manifest failure handling -/

/-- Counterexample to `C7` as stated: a manifest whose content is a valid
literal but not a key-value mapping (for example the list `[1, 2, 3]`) is
not replaced by an empty mapping — `ast.literal_eval` succeeds, the value
is stored as-is, and `_generate_summary` then calls `.get` on a non-dict,
raising an uncaught `AttributeError`: the run crashes before the summary
and index files are written (`final = none`). -/
theorem spec_c7_counterexample :
    _extract_manifest ManifestSrc.nonDict ≠ ModuleInfo.dict []
    ∧ (extract ⟨"m", ManifestSrc.nonDict, []⟩ 0).final = none :=
  ⟨fun h => ModuleInfo.noConfusion h, rfl⟩

/-- `C7` (amended): when the manifest file is absent, or reading or
literally evaluating it raises (unsafe constructs, syntax errors,
undecodable bytes), the module-info mapping is empty and the run still
produces its summary and index; a manifest evaluating to a non-mapping
literal instead crashes the run during summary generation. -/
theorem spec_c7 (fs : ModuleFS) (t : Nat)
    (h : fs.manifest = ManifestSrc.absent ∨ fs.manifest = ManifestSrc.evalError) :
    _extract_manifest fs.manifest = ModuleInfo.dict []
    ∧ (extract fs t).final.isSome = true := by
  have hmi : _extract_manifest fs.manifest = ModuleInfo.dict [] := by
    rcases h with h | h <;> rw [h] <;> rfl
  refine ⟨hmi, ?_⟩
  simp [extract, hmi, _generate_summary]

/-- Witness for `C7`: a module without a manifest file. -/
theorem spec_c7_witness :
    ((⟨"m", ManifestSrc.absent, []⟩ : ModuleFS).manifest = ManifestSrc.absent
      ∨ (⟨"m", ManifestSrc.absent, []⟩ : ModuleFS).manifest = ManifestSrc.evalError)
    ∧ (extract ⟨"m", ManifestSrc.absent, []⟩ 0).final.isSome = true :=
  ⟨Or.inl rfl, (spec_c7 ⟨"m", ManifestSrc.absent, []⟩ 0 (Or.inl rfl)).2⟩

/-! ### Binary files and checksums -/

theorem length_toLEBytes (n x : Nat) : (toLEBytes n x).length = n := by
  simp [toLEBytes]

theorem length_md5DigestBytes (msg : List Nat) :
    (md5DigestBytes msg).length = 16 := by
  unfold md5DigestBytes
  generalize (chunk64 (md5Pad msg)).foldl md5Block
    (0x67452301, 0xefcdab89, 0x98badcfe, 0x10325476) = st
  obtain ⟨a, b, c, d⟩ := st
  simp [length_toLEBytes]

theorem length_flatMap_byteHex (l : List Nat) :
    (l.flatMap byteHex).length = 2 * l.length := by
  induction l with
  | nil => rfl
  | cons a l ih =>
    simp only [List.flatMap_cons, List.length_append, List.length_cons, ih, byteHex]
    simp
    omega

theorem length_md5HexChars (msg : List Nat) : (md5HexChars msg).length = 32 := by
  rw [md5HexChars, length_flatMap_byteHex, length_md5DigestBytes]

theorem hexDigit_mem (n : Nat) : hexDigit n ∈ hexChars := by
  rw [hexDigit, List.getD_eq_getElem?_getD]
  rcases h : hexChars[n]? with _ | c
  · simp [h]
    decide
  · simpa [h] using List.getElem?_mem h

theorem mem_hexChars_of_mem_md5HexChars {c : Char} {msg : List Nat}
    (h : c ∈ md5HexChars msg) : c ∈ hexChars := by
  rw [md5HexChars, List.mem_flatMap] at h
  obtain ⟨b, _, hb⟩ := h
  rcases (by simpa [byteHex] using hb : c = hexDigit (b / 16 % 16) ∨ c = hexDigit (b % 16)) with
    h | h <;> (rw [h]; exact hexDigit_mem _)

/-- Counterexample to `C8` as stated: a Python source file with an allowed
extension whose bytes do not decode as UTF-8 is rendered by
`_write_python_file`, whose outer exception handler emits an `ERROR:` line
— not the binary-skip marker.  Only the generic renderer (extensions other
than `.py`/`.xml`) emits the marker. -/
theorem spec_c8_counterexample :
    INCLUDE_EXTENSIONS.contains
        (pathSuffix (⟨"x.py", "x.py", ⟨1, some [255], none, none, none⟩⟩ :
          FileItem).name) = true
    ∧ (⟨"x.py", "x.py", ⟨1, some [255], none, none, none⟩⟩ : FileItem).data.text = none
    ∧ fileBody ⟨"x.py", "x.py", ⟨1, some [255], none, none, none⟩⟩ = [Chunk.errorRead]
    ∧ fileBody ⟨"x.py", "x.py", ⟨1, some [255], none, none, none⟩⟩
        ≠ [Chunk.text "CONTENT: [Binary file - skipped]"] :=
  ⟨by decide, rfl, rfl, by decide⟩

/-- `C8` (amended): for every file with an allowed extension other than
`.py` and `.xml` whose bytes cannot be decoded as UTF-8 text, the rendered
CONTENT block is exactly the binary-skip marker (no raw bytes reach the
bundle), and the file's FileRecord carries a checksum that is the
8-hex-character truncation of the MD5 digest of the raw bytes whenever
those are readable. -/
theorem spec_c8 (it : FileItem)
    (_hext : INCLUDE_EXTENSIONS.contains (pathSuffix it.name) = true)
    (hpy : pathSuffix it.name ≠ ".py")
    (hxml : pathSuffix it.name ≠ ".xml")
    (htext : it.data.text = none) :
    fileBody it = [Chunk.text "CONTENT: [Binary file - skipped]"]
    ∧ ∀ bs : List Nat, it.data.bytes = some bs →
        (mkRecord it).checksum = String.mk ((md5HexChars bs).take 8)
        ∧ (mkRecord it).checksum.data.length = 8
        ∧ ∀ c ∈ (mkRecord it).checksum.data, c ∈ hexChars := by
  constructor
  · rw [fileBody]
    rw [if_neg (by simpa using hpy), if_neg (by simpa using hxml)]
    rw [_write_generic_file, htext]
  · intro bs hbs
    have hcs : (mkRecord it).checksum = String.mk ((md5HexChars bs).take 8) := by
      rw [mkRecord]
      show _calculate_checksum it.data = _
      rw [_calculate_checksum, hbs]
    refine ⟨hcs, ?_, ?_⟩
    · rw [hcs]
      show ((md5HexChars bs).take 8).length = 8
      rw [List.length_take, length_md5HexChars]
      decide
    · intro c hc
      rw [hcs] at hc
      exact mem_hexChars_of_mem_md5HexChars (List.mem_of_mem_take hc)

/-- Witness for `C8`: a `.txt` file whose two raw bytes are not valid
UTF-8. -/
theorem spec_c8_witness :
    INCLUDE_EXTENSIONS.contains (pathSuffix "b.txt") = true
    ∧ pathSuffix "b.txt" ≠ ".py"
    ∧ pathSuffix "b.txt" ≠ ".xml"
    ∧ fileBody ⟨"b.txt", "b.txt", ⟨2, some [0, 255], none, none, none⟩⟩
        = [Chunk.text "CONTENT: [Binary file - skipped]"] :=
  ⟨by decide, by decide, by decide,
   (spec_c8 ⟨"b.txt", "b.txt", ⟨2, some [0, 255], none, none, none⟩⟩
     (by decide) (by decide) (by decide) rfl).1⟩

/-! ### Markup rendering -/

/-- Counterexample to `C4` as stated: for a markup file whose root tag is
`odoo` but which contains no `record` (and no `template`) element, the
code still writes the `PARSED_INFO:` header — the header is emitted
whenever the root tag matches, not only when at least one record was
found. -/
theorem spec_c4_counterexample :
    findallDesc (XmlElem.elem "odoo" none []) "record" = []
    ∧ Chunk.text "PARSED_INFO:" ∈
        _write_xml_file ⟨7, none, some "<odoo/>", none,
          some (.elem "odoo" none [])⟩ := by
  constructor
  · simp [findallDesc, XmlElem.descendants]
  · simp [_write_xml_file, findallDesc, XmlElem.descendants, XmlElem.tag]

/-- `C4` (amended): when the root tag of a parsed markup file is `odoo` or
`openerp`, the `PARSED_INFO:` header is always emitted (records found or
not); a records line with the count and the `id` attribute (or the
`no-id` placeholder) of the first 5 records — with an ellipsis marker
exactly when more than 5 records exist — is emitted if and only if at
least one record was found; and a template-count line is emitted if and
only if the template count is nonzero; the raw content follows. -/
theorem spec_c4 (d : FileData) (content : String) (root : XmlElem)
    (htext : d.text = some content) (hxml : d.xml = some root)
    (htag : root.tag = "odoo" ∨ root.tag = "openerp") :
    (_write_xml_file d
      = [Chunk.text "PARSED_INFO:"]
        ++ (if (findallDesc root "record").length = 0 then []
            else
              [Chunk.text ("  Records: "
                 ++ toString (findallDesc root "record").length),
               Chunk.text ("  Record IDs: "
                 ++ String.intercalate ", "
                      (((findallDesc root "record").take 5).map
                        XmlElem.idOrDefault)
                 ++ (if 5 < (findallDesc root "record").length then "..."
                     else ""))])
        ++ (if (findallDesc root "template").length = 0 then []
            else [Chunk.text ("  Templates: "
                    ++ toString (findallDesc root "template").length)])
        ++ [Chunk.text "CONTENT:", Chunk.text content])
    ∧ Chunk.text "PARSED_INFO:" ∈ _write_xml_file d := by
  have htagb : (root.tag == "odoo" || root.tag == "openerp") = true := by
    rcases htag with h | h <;> simp [h]
  constructor
  · rw [_write_xml_file, htext, hxml]
    simp only [htagb, if_true]
    have hb : ∀ l : List XmlElem, l.isEmpty = decide (l.length = 0) := by
      intro l
      cases l <;> simp
    by_cases hr : (findallDesc root "record").length = 0 <;>
      by_cases ht : (findallDesc root "template").length = 0 <;>
        simp [hb, hr, ht, Nat.lt_iff_add_one_le]
  · rw [_write_xml_file, htext, hxml]
    simp [htagb]

/-- A markup tree with root tag `odoo` and three `record` children with
ids `a`, `b`, `c` (the specification's own example for `C4`). -/
def xml3root : XmlElem :=
  .elem "odoo" none
    [.elem "record" (some "a") [], .elem "record" (some "b") [],
     .elem "record" (some "c") []]

/-- The file data of the example markup file for the `C4` witness. -/
def xml3data : FileData := ⟨9, none, some "X", none, some xml3root⟩

/-- Witness for `C4`: the specification's own example — a markup file with
root tag `odoo` containing exactly three `record` elements with ids `a`,
`b`, `c`; the `PARSED_INFO:` block is emitted. -/
theorem spec_c4_witness :
    xml3data.text = some "X"
    ∧ xml3root.tag = "odoo"
    ∧ Chunk.text "PARSED_INFO:" ∈ _write_xml_file xml3data :=
  ⟨rfl, rfl, (spec_c4 xml3data "X" xml3root rfl rfl (Or.inl rfl)).2⟩

/-! ### Python source rendering and the structural scan -/

theorem attach_flatMap {α β : Type} (l : List α) (f : α → List β) :
    l.attach.flatMap (fun x => f x.1) = l.flatMap f := by
  conv_rhs => rw [← List.attach_map_subtype_val l]
  rw [List.flatMap_map]

theorem sizeOf_lt_of_mem_children {x n : PyNode} (h : x ∈ PyNode.children n) :
    sizeOf x < sizeOf n := by
  have hlt := List.sizeOf_lt_of_mem h
  cases n with
  | classDef name cs =>
    simp only [PyNode.children] at hlt
    simp only [PyNode.classDef.sizeOf_spec]
    omega
  | funcDef name cs =>
    simp only [PyNode.children] at hlt
    simp only [PyNode.funcDef.sizeOf_spec]
    omega
  | other cs =>
    simp only [PyNode.children] at hlt
    simp only [PyNode.other.sizeOf_spec]
    omega

theorem map_sizeOf_sum_lt_sizeOf (cs : List PyNode) :
    (cs.map sizeOf).sum < sizeOf cs := by
  induction cs with
  | nil => simp
  | cons hd tl ih =>
    simp only [List.map_cons, List.sum_cons, List.cons.sizeOf_spec]
    omega

theorem children_sizeOf_sum_lt (n : PyNode) :
    ((PyNode.children n).map sizeOf).sum < sizeOf n := by
  cases n with
  | classDef name cs =>
    have := map_sizeOf_sum_lt_sizeOf cs
    simp only [PyNode.children, PyNode.classDef.sizeOf_spec]
    omega
  | funcDef name cs =>
    have := map_sizeOf_sum_lt_sizeOf cs
    simp only [PyNode.children, PyNode.funcDef.sizeOf_spec]
    omega
  | other cs =>
    have := map_sizeOf_sum_lt_sizeOf cs
    simp only [PyNode.children, PyNode.other.sizeOf_spec]
    omega

/-- All nodes of a subtree, root first, in document (pre-)order. -/
def allNodes (n : PyNode) : List PyNode :=
  n :: n.children.attach.flatMap (fun c => allNodes c.1)
  termination_by sizeOf n
  decreasing_by exact sizeOf_lt_of_mem_children c.2

theorem allNodes_eq (n : PyNode) :
    allNodes n = n :: n.children.flatMap allNodes := by
  rw [allNodes.eq_def, attach_flatMap]

theorem walkBFS_nil : walkBFS [] = [] := by rw [walkBFS.eq_def]

theorem walkBFS_cons (n : PyNode) (rest : List PyNode) :
    walkBFS (n :: rest) = n :: walkBFS (rest ++ n.children) := by
  rw [walkBFS.eq_def]

theorem sizeOf_pos_pyNode (n : PyNode) : 0 < sizeOf n := by
  cases n <;> simp

/-- `ast.walk` visits every node of the queued subtrees exactly once: its
output is a permutation of the concatenated pre-order node lists. -/
theorem walkBFS_perm (q : List PyNode) :
    (walkBFS q).Perm (q.flatMap allNodes) := by
  have key : ∀ (m : Nat) (q : List PyNode), (q.map sizeOf).sum ≤ m →
      (walkBFS q).Perm (q.flatMap allNodes) := by
    intro m
    induction m with
    | zero =>
      intro q hq
      cases q with
      | nil => rw [walkBFS_nil]; rfl
      | cons n rest =>
        exfalso
        have := sizeOf_pos_pyNode n
        simp only [List.map_cons, List.sum_cons] at hq
        omega
    | succ m ih =>
      intro q hq
      cases q with
      | nil => rw [walkBFS_nil]; rfl
      | cons n rest =>
        rw [walkBFS_cons]
        have hlt : (n.children.map sizeOf).sum < sizeOf n :=
          children_sizeOf_sum_lt n
        have hle : ((rest ++ n.children).map sizeOf).sum ≤ m := by
          rw [List.map_append, List.sum_append]
          simp only [List.map_cons, List.sum_cons] at hq
          omega
        have h1 : (walkBFS (rest ++ n.children)).Perm
            ((rest ++ n.children).flatMap allNodes) := ih _ hle
        have h2 : ((rest ++ n.children).flatMap allNodes)
            = rest.flatMap allNodes ++ n.children.flatMap allNodes :=
          List.flatMap_append ..
        have h3 : (rest.flatMap allNodes ++ n.children.flatMap allNodes).Perm
            (n.children.flatMap allNodes ++ rest.flatMap allNodes) :=
          List.perm_append_comm
        have h4 := ((h2 ▸ h1).trans h3).cons n
        rw [List.flatMap_cons, allNodes_eq]
        exact h4
  exact key _ q le_rfl

/-- Modelled from the spec: the "top-level class ... declaration names"
reading of the structural scan — only the classes appearing directly in
the module body.  Used solely to compare the spec's wording with the
code's scan. -/
def topLevelClasses (body : PyModule) : List String :=
  body.filterMap
    (fun n => match n with | .classDef name _ => some name | _ => none)

/-- Modelled from the spec: the "top-level ... function/method declaration
names" reading of the structural scan — only the functions appearing
directly in the module body. -/
def topLevelFunctions (body : PyModule) : List String :=
  body.filterMap
    (fun n => match n with | .funcDef name _ => some name | _ => none)

/-- Counterexample to `C5` as stated: `ast.walk` traverses the whole tree,
so for a module consisting of one function `f` containing a nested
function `g`, the scan collects `g` as well — `g` is neither a top-level
declaration nor a method. -/
theorem spec_c5_counterexample :
    scanFunctions [PyNode.funcDef "f" [PyNode.funcDef "g" []]] = ["f", "g"]
    ∧ topLevelFunctions [PyNode.funcDef "f" [PyNode.funcDef "g" []]] = ["f"]
    ∧ scanFunctions [PyNode.funcDef "f" [PyNode.funcDef "g" []]]
        ≠ topLevelFunctions [PyNode.funcDef "f" [PyNode.funcDef "g" []]] := by
  have h1 : scanFunctions [PyNode.funcDef "f" [PyNode.funcDef "g" []]]
      = ["f", "g"] := by
    simp [scanFunctions, walkBFS_cons, walkBFS_nil, PyNode.children]
  refine ⟨h1, rfl, ?_⟩
  intro h
  rw [h1] at h
  exact absurd h (by decide)

/-- `C5` (amended): the structural scan collects the names of all class
and all function/method declarations at any nesting depth (the scan's
output is a permutation of the pre-order declaration-name lists); when any
names were found a `PARSED_INFO:` block is prepended listing every
collected class name and the first 10 collected function names with an
ellipsis marker exactly when more than 10 were collected; when `ast.parse`
fails the block is silently skipped and the raw content is still
emitted. -/
theorem spec_c5 (d : FileData) (content : String)
    (htext : d.text = some content) :
    (d.pyAst = none →
      _write_python_file d = [Chunk.text "CONTENT:", Chunk.text content])
    ∧ ∀ body : PyModule, d.pyAst = some body →
        (_write_python_file d
          = (if scanClasses body = [] ∧ scanFunctions body = [] then []
             else
               [Chunk.text "PARSED_INFO:"]
               ++ (if scanClasses body = [] then []
                   else [Chunk.text ("  Classes: "
                          ++ String.intercalate ", " (scanClasses body))])
               ++ (if scanFunctions body = [] then []
                   else [Chunk.text ("  Functions: "
                          ++ String.intercalate ", " ((scanFunctions body).take 10)
                          ++ (if 10 < (scanFunctions body).length then "..."
                              else ""))]))
            ++ [Chunk.text "CONTENT:", Chunk.text content])
        ∧ (scanFunctions body).Perm
            ((allNodes (.other body)).filterMap
              (fun n => match n with | .funcDef name _ => some name | _ => none))
        ∧ (scanClasses body).Perm
            ((allNodes (.other body)).filterMap
              (fun n => match n with | .classDef name _ => some name | _ => none)) := by
  constructor
  · intro hast
    rw [_write_python_file, htext, hast]
    rfl
  · intro body hast
    refine ⟨?_, ?_, ?_⟩
    · rw [_write_python_file, htext, hast]
      have hb : ∀ l : List String, l.isEmpty = decide (l = []) := by
        intro l
        cases l <;> simp
      by_cases hcl : scanClasses body = [] <;>
        by_cases hfn : scanFunctions body = [] <;>
          simp [hb, hcl, hfn, Nat.lt_iff_add_one_le]
    · have h := (walkBFS_perm [PyNode.other body]).filterMap
        (fun n => match n with | PyNode.funcDef name _ => some name | _ => none)
      simpa [scanFunctions, allNodes_eq, PyNode.children] using h
    · have h := (walkBFS_perm [PyNode.other body]).filterMap
        (fun n => match n with | PyNode.classDef name _ => some name | _ => none)
      simpa [scanClasses, allNodes_eq, PyNode.children] using h

/-- Witness for `C5`: a decodable source file whose structural scan failed
(`ast.parse` raised) — the `PARSED_INFO:` block is skipped and the raw
content is still emitted. -/
theorem spec_c5_witness :
    (⟨5, none, some "Y", none, none⟩ : FileData).text = some "Y"
    ∧ (⟨5, none, some "Y", none, none⟩ : FileData).pyAst = none
    ∧ _write_python_file ⟨5, none, some "Y", none, none⟩
        = [Chunk.text "CONTENT:", Chunk.text "Y"] :=
  ⟨rfl, rfl, (spec_c5 ⟨5, none, some "Y", none, none⟩ "Y" rfl).1 rfl⟩

/-! ### Glob matching across path separators -/

theorem globMatch1_nil : globMatch1 [] [] = true := by
  rw [globMatch1.eq_def]

theorem globMatch1_lit_step (p c : Char) (ps cs : List Char)
    (h1 : p ≠ '*') (h2 : p ≠ '?') :
    globMatch1 (p :: ps) (c :: cs) = (p == c && globMatch1 ps cs) := by
  rw [globMatch1.eq_def]
  split <;> simp_all

theorem glob_pre (pre : List Char) (hpre : ∀ c ∈ pre, c ≠ '*' ∧ c ≠ '?')
    (ps cs : List Char) :
    globMatch1 (pre ++ ps) (pre ++ cs) = globMatch1 ps cs := by
  induction pre with
  | nil => rfl
  | cons c rest ih =>
    have hc := hpre c (List.mem_cons_self ..)
    rw [List.cons_append, List.cons_append,
      globMatch1_lit_step c c (rest ++ ps) (rest ++ cs) hc.1 hc.2,
      ih (fun x hx => hpre x (List.mem_cons_of_mem _ hx))]
    simp

theorem globMatch1_self (l : List Char) (h : ∀ c ∈ l, c ≠ '*' ∧ c ≠ '?') :
    globMatch1 l l = true := by
  have := glob_pre l h [] []
  simpa [globMatch1_nil] using this

theorem glob_star (ps xs ys : List Char) (h : globMatch1 ps ys = true) :
    globMatch1 ('*' :: ps) (xs ++ ys) = true := by
  induction xs with
  | nil =>
    cases ys with
    | nil =>
      rw [List.nil_append, globMatch1.eq_def]
      simpa using h
    | cons c cs =>
      rw [List.nil_append, globMatch1.eq_def]
      simp only []
      simp [h]
  | cons x xs ih =>
    rw [List.cons_append, globMatch1.eq_def]
    simp [ih]

/-- `C10`: in the glob pass, `*` matches across path separators: any file
of the form `models/<subdir>/<name>.py`, nested more than one level below
`models`, still receives priority 3 from the pattern `models/*.py` (and
not the default sentinel). -/
theorem spec_c10 (sub nm : String) :
    _get_file_priority ("models/" ++ sub ++ "/" ++ nm ++ ".py") = 3 := by
  have hdata : (normalizeSep ("models/" ++ sub ++ "/" ++ nm ++ ".py")).data
      = 'm' :: 'o' :: 'd' :: 'e' :: 'l' :: 's' :: '/' ::
        ((normalizeSep sub).data ++ '/' ::
          ((normalizeSep nm).data ++ ['.', 'p', 'y'])) := by
    simp [normalizeSep, String.data_append, List.map_append]
  have hhead : (normalizeSep ("models/" ++ sub ++ "/" ++ nm ++ ".py")).data.headD ' '
      = 'm' := by rw [hdata]; rfl
  have hne : ∀ kv ∈ PRIORITY_FILES,
      kv.1 ≠ normalizeSep ("models/" ++ sub ++ "/" ++ nm ++ ".py") := by
    intro kv hkv
    have hstar : ∀ k : String, k = "models/*.py" →
        k ≠ normalizeSep ("models/" ++ sub ++ "/" ++ nm ++ ".py") := by
      intro k hk h
      subst hk
      have hd2 : ("models/*.py".data : List Char)
          = (normalizeSep ("models/" ++ sub ++ "/" ++ nm ++ ".py")).data :=
        congrArg String.data h
      rw [hdata] at hd2
      have hd3 := congrArg (List.drop 7) hd2
      simp only [List.drop] at hd3
      have hmem : '/' ∈ (['*', '.', 'p', 'y'] : List Char) := by
        rw [hd3]
        simp
      exact absurd hmem (by decide)
    have hhd : ∀ k : String, k.data.headD ' ' ≠ 'm' →
        k ≠ normalizeSep ("models/" ++ sub ++ "/" ++ nm ++ ".py") := by
      intro k hkhd h
      apply hkhd
      rw [h, hhead]
    fin_cases hkv
    · exact hhd _ (by decide)
    · exact hhd _ (by decide)
    · exact hstar _ rfl
    · exact hhd _ (by decide)
    · exact hhd _ (by decide)
    · exact hhd _ (by decide)
    · exact hhd _ (by decide)
    · exact hhd _ (by decide)
    · exact hhd _ (by decide)
    · exact hhd _ (by decide)
  have hexact : findExact PRIORITY_FILES
      (normalizeSep ("models/" ++ sub ++ "/" ++ nm ++ ".py")) = none := by
    have : ∀ (l : List (String × Nat)),
        (∀ kv ∈ l, kv.1 ≠ normalizeSep ("models/" ++ sub ++ "/" ++ nm ++ ".py")) →
        findExact l (normalizeSep ("models/" ++ sub ++ "/" ++ nm ++ ".py")) = none := by
      intro l
      induction l with
      | nil => intro _; rfl
      | cons kv rest ih =>
        intro hl
        obtain ⟨k, p⟩ := kv
        rw [findExact,
          if_neg (hl (k, p) (List.mem_cons_self ..)),
          ih (fun x hx => hl x (List.mem_cons_of_mem _ hx))]
    exact this _ hne
  have hfn : fnmatchB (normalizeSep ("models/" ++ sub ++ "/" ++ nm ++ ".py"))
      "models/*.py" = true := by
    rw [fnmatchB, hdata]
    rw [show ("models/*.py".data : List Char)
        = "models/".data ++ '*' :: ".py".data from rfl]
    rw [show ('m' :: 'o' :: 'd' :: 'e' :: 'l' :: 's' :: '/' ::
          ((normalizeSep sub).data ++ '/' ::
            ((normalizeSep nm).data ++ ['.', 'p', 'y'])) : List Char)
        = "models/".data ++
            ((normalizeSep sub).data ++ '/' ::
              ((normalizeSep nm).data ++ ['.', 'p', 'y'])) from rfl]
    rw [glob_pre "models/".data (by decide)]
    rw [show ((normalizeSep sub).data ++ '/' ::
          ((normalizeSep nm).data ++ ['.', 'p', 'y']) : List Char)
        = ((normalizeSep sub).data ++ '/' :: (normalizeSep nm).data)
            ++ ['.', 'p', 'y'] from by simp]
    exact glob_star _ _ _
      (by
        rw [show (".py".data : List Char) = ['.', 'p', 'y'] from rfl]
        exact globMatch1_self _ (by decide))
  have hglob : findGlob PRIORITY_FILES
      (normalizeSep ("models/" ++ sub ++ "/" ++ nm ++ ".py")) = some 3 := by
    have hc1 : ("__manifest__.py".data.contains '*') = false := by decide
    have hc2 : ("__init__.py".data.contains '*') = false := by decide
    have hc3 : ("models/*.py".data.contains '*') = true := by decide
    rw [show PRIORITY_FILES = ("__manifest__.py", 1) :: ("__init__.py", 2) ::
        ("models/*.py", 3) :: [("views/*.xml", 4), ("security/*.csv", 5),
        ("data/*.xml", 6), ("wizard/*.py", 7), ("controllers/*.py", 8),
        ("static/src/*.js", 9), ("reports/*.xml", 10)] from rfl]
    rw [findGlob, if_neg (by rw [hc1]; simp)]
    rw [findGlob, if_neg (by rw [hc2]; simp)]
    rw [findGlob, if_pos (by rw [hc3, hfn]; rfl)]
  unfold _get_file_priority
  simp only [hexact, hglob]

end OdooExtractor
